import Mathlib

/-!
Verification development for the CIUSuite2 numeric core.

Shallow embedding of the functions of CIU2_Main.py and CIU_analysis_obj.py
that the claims concern.  Matrices are represented column-major: a matrix is
the list of its collision-voltage (CV) columns, and each column is the list of
intensities along the drift-time (DT) axis.  Intensities and axis values are
embedded as rationals.  Fallible code returns Except; Python attributes that
are attached after construction (params, raw_obj_list, filename) are Option
fields defaulting to none.

The functions of the Raw_Processing module (normalize_by_col, interpolate_cv,
sav_gol_smooth, crop) are not part of the two source files; they are modelled
from the spec where needed, each with a doc comment saying so.
-/

set_option autoImplicit false

/-- One CV column (intensities along the DT axis). -/
abbrev Col := List ℚ

/-- A CIU matrix, represented as the list of its CV columns. -/
abbrev Mat := List Col

/-- Error taxonomy of spec section 7. -/
inductive Err where
  | InputFormatError
  | AxisMismatchError
  | ConfigurationError
  | FitConvergenceError
deriving DecidableEq, Repr

/-- The CIURaw object produced by Raw_Processing.get_data: raw data, filename,
filepath and the two axes. -/
structure CIURaw where
  filename : String
  filepath : String
  rawdata : Mat
  dt_axis : List ℚ
  cv_axis : List ℚ
deriving DecidableEq, Repr

/-- The subset of CIU_Params.Parameters consulted by process_raw_obj
(spec section 6 configuration struct). -/
structure Params where
  interpolation_bins : Option ℕ
  smoothing_window : Option ℕ
  smoothing_iterations : ℕ
  cropping_window_values : Option (ℚ × ℚ × ℚ × ℚ)
  save_output_csv : Bool
deriving DecidableEq, Repr

/-- CIUAnalysisObj (CIU_analysis_obj.py, lines 16-44).  The twelve gauss
fields are initialized to None by the constructor; params, raw_obj_list and
filename are attributes that other functions attach later, hence Option
fields defaulting to none. -/
structure CIUAnalysisObj where
  raw_obj : CIURaw
  ciu_data : Mat
  axes : List ℚ × List ℚ
  gauss_params : Option (List (List ℚ)) := none
  gauss_baselines : Option (List ℚ) := none
  gauss_amplitudes : Option (List ℚ) := none
  gauss_centroids : Option (List ℚ) := none
  gauss_widths : Option (List ℚ) := none
  gauss_fwhms : Option (List ℚ) := none
  gauss_adj_r2s : Option (List ℚ) := none
  gauss_fits : Option (List (List ℚ)) := none
  gauss_covariances : Option (List (List ℚ)) := none
  gauss_r2s : Option (List ℚ) := none
  gauss_resolutions : Option (List ℚ) := none
  gauss_fit_stats : Option (List (List ℚ)) := none
  params : Option Params := none
  raw_obj_list : Option (List CIURaw) := none
  filename : Option String := none
deriving DecidableEq, Repr

/-- CIUAnalysisObj.init_gauss_lists (CIU_analysis_obj.py, lines 46-56):
stores gauss_params and derives the four parallel component lists with
x[0], x[1], x[2], x[3] of each per-column record.  Out-of-range indexing
raises IndexError in Python; the getD default is only quoted under a
length hypothesis in the theorems. -/
def init_gauss_lists (obj : CIUAnalysisObj) (ps : List (List ℚ)) : CIUAnalysisObj :=
  { obj with
    gauss_params := some ps
    gauss_baselines := some (ps.map (fun x => x.getD 0 0))
    gauss_amplitudes := some (ps.map (fun x => x.getD 1 0))
    gauss_centroids := some (ps.map (fun x => x.getD 2 0))
    gauss_widths := some (ps.map (fun x => x.getD 3 0)) }

/-- CIUAnalysisObj.__init__ (CIU_analysis_obj.py, lines 16-44): stores raw
object, data and axes, leaves every gauss field as None, then initializes the
parameter lists when gauss_params is provided. -/
def CIUAnalysisObj.make (raw : CIURaw) (ciu_data : Mat) (axes : List ℚ × List ℚ)
    (gauss_params : Option (List (List ℚ))) : CIUAnalysisObj :=
  let base : CIUAnalysisObj := { raw_obj := raw, ciu_data := ciu_data, axes := axes }
  match gauss_params with
  | none => base
  | some ps => init_gauss_lists base ps

/-- CIUAnalysisObj.save_gaussfits_pdf (CIU_analysis_obj.py, lines 58-80):
if gauss_fits is None the method prints a notice and returns without writing
anything, modelled as none.  Otherwise it produces one page per CV column,
plotting that column of the data against its fitted curve; the pages are
modelled as the pairs of data plotted. -/
def save_gaussfits_pdf (obj : CIUAnalysisObj) : Option (List (Col × List ℚ)) :=
  match obj.gauss_fits with
  | none => none
  | some fits =>
      some ((List.range obj.axes.2.length).map
        (fun k => (obj.ciu_data.getD k [], fits.getD k [])))

/-- Python str.rstrip(chars): removes the longest trailing run of characters
each of which occurs in the chars argument. -/
def pyRstrip (s : String) (chars : String) : String :=
  String.mk (((s.toList.reverse).dropWhile (fun ch => chars.toList.contains ch)).reverse)

/-- The string s ends with the string suf (stated on the character lists so
that it evaluates inside the kernel). -/
def strEndsWith (s suf : String) : Bool :=
  suf.toList.isSuffixOf s.toList

/-- Exact-suffix removal, the comparator the spec asks for in section 9
(strip the literal suffix only when the string actually ends with it). -/
def stripExactSuffix (s suf : String) : String :=
  if strEndsWith s suf then String.mk (s.toList.take (s.toList.length - suf.toList.length))
  else s

/-- Output-name derivation of save_analysis_obj (CIU2_Main.py, lines 589-610):
raw_obj.filename.rstrip of the string _raw.csv, then the append string, then
the .ciu extension.  Directory joining by os.path.join is omitted; no claim
concerns it. -/
def save_analysis_obj_name (raw_filename append_str : String) : String :=
  pyRstrip raw_filename "_raw.csv" ++ append_str ++ ".ciu"

/-- Elementwise matrix sum of two matrices of equal shape (used to model
np.mean over a list of matrices). -/
def matAdd (A B : Mat) : Mat :=
  List.zipWith (List.zipWith (· + ·)) A B

/-- Scale every entry of a matrix. -/
def matScale (c : ℚ) (A : Mat) : Mat :=
  A.map (fun col => col.map (fun x => c * x))

/-- np.mean(ms, axis=0) for a list of equal-shaped matrices: the elementwise
sum divided by the number of matrices.  The ragged (mismatched-shape) numpy
behavior is not modelled; theorems about it carry shape hypotheses. -/
def npMean : List Mat → Mat
  | [] => []
  | m :: rest => matScale (1 / ((m :: rest).length : ℚ)) (rest.foldl matAdd m)

/-- Entry of a matrix at column i, row j (0 outside the matrix). -/
def mEntry (A : Mat) (i j : ℕ) : ℚ :=
  (A.getD i []).getD j 0

/-- A matrix has n columns, each of length m. -/
def HasShape (A : Mat) (n m : ℕ) : Prop :=
  A.length = n ∧ ∀ i < n, (A.getD i []).length = m

instance (A : Mat) (n m : ℕ) : Decidable (HasShape A n m) := by
  unfold HasShape
  infer_instance

/-- Modelled from the spec: Raw_Processing.normalize_by_col is not in the
source files.  Spec section 4.1: scale each column by its own maximum, and
leave a column whose maximum is exactly zero unchanged. -/
def normalize_by_col (data : Mat) : Mat :=
  data.map (fun col =>
    let mx := col.foldr max 0
    if mx = 0 then col else col.map (fun x => x / mx))

/-- Piecewise linear interpolation through the sample points, used by the
spec model of the interpolator. -/
def linInterp : List (ℚ × ℚ) → ℚ → ℚ
  | [], _ => 0
  | [p], _ => p.2
  | p :: q :: rest, x =>
      if x ≤ q.1 then p.2 + (q.2 - p.2) * (x - p.1) / (q.1 - p.1)
      else linInterp (q :: rest) x

/-- Modelled from the spec: Raw_Processing.interpolate_cv is not in the
source files.  Spec section 4.2: resample the DT axis to exactly n evenly
spaced points spanning the original range, interpolating each column
independently; CV axis unchanged; ConfigurationError when n is below 2 or
the source axis has fewer than 2 points. -/
def interpolate_cv (data : Mat) (axes : List ℚ × List ℚ) (n : ℕ) :
    Except Err (Mat × (List ℚ × List ℚ)) :=
  if n < 2 ∨ axes.1.length < 2 then .error .ConfigurationError
  else
    let a0 := axes.1.headD 0
    let aN := axes.1.getLastD 0
    let newDt := (List.range n).map (fun j => a0 + (aN - a0) * (j : ℚ) / ((n : ℚ) - 1))
    let newData := data.map (fun col => newDt.map (linInterp (axes.1.zip col)))
    .ok (newData, (newDt, axes.2))

/-- Centered moving average of window w over a column, the order-0 member of
the Savitzky-Golay family (edge windows truncated to the column). -/
def movAvg (w : ℕ) (col : Col) : Col :=
  let h := w / 2
  (List.range col.length).map (fun i =>
    let lo := i - h
    let hi := min (i + h) (col.length - 1)
    let win := (col.drop lo).take (hi - lo + 1)
    win.sum / (win.length : ℚ))

/-- Single smoothing pass applied to every column. -/
def savGolSmoothPure (w : ℕ) (data : Mat) : Mat :=
  data.map (movAvg w)

/-- Modelled from the spec: Raw_Processing.sav_gol_smooth is not in the
source files.  Spec section 4.3: a fixed-order polynomial smoothing filter
along DT per column, ConfigurationError when the window is even or exceeds
the DT length.  The polynomial order is not given by the spec; the filter is
modelled as the order-0 Savitzky-Golay filter (centered moving average). -/
def sav_gol_smooth (data : Mat) (w : ℕ) : Except Err Mat :=
  if w % 2 = 0 then .error .ConfigurationError
  else if data.any (fun col => col.length < w) then .error .ConfigurationError
  else .ok (savGolSmoothPure w data)

/-- The while loop of process_raw_obj (CIU2_Main.py, lines 549-552): apply
sav_gol_smooth k times, each pass consuming the previous output. -/
def smoothLoop : ℕ → ℕ → Mat → Except Err Mat
  | 0, _, d => .ok d
  | Nat.succ k, w, d =>
      match sav_gol_smooth d w with
      | .error e => .error e
      | .ok d2 => smoothLoop k w d2

/-- Modelled from the spec: Raw_Processing.crop is not in the source files.
Spec section 4.4: keep the rows and columns whose axis value lies in the
inclusive bound range; AxisMismatchError when a low bound exceeds its high
bound or when no data is selected on an axis. -/
def cropData (data : Mat) (axes : List ℚ × List ℚ) (bounds : ℚ × ℚ × ℚ × ℚ) :
    Except Err (Mat × (List ℚ × List ℚ)) :=
  match bounds with
  | (dtlo, dthi, cvlo, cvhi) =>
    if dthi < dtlo ∨ cvhi < cvlo then .error .AxisMismatchError
    else
      let dtKeep := axes.1.filter (fun v => decide (dtlo ≤ v ∧ v ≤ dthi))
      let keptCols := (axes.2.zip data).filter (fun pr => decide (cvlo ≤ pr.1 ∧ pr.1 ≤ cvhi))
      let cvKeep := keptCols.map (fun pr => pr.1)
      let newData := keptCols.map (fun pr =>
        ((axes.1.zip pr.2).filter (fun q => decide (dtlo ≤ q.1 ∧ q.1 ≤ dthi))).map
          (fun q => q.2))
      if dtKeep.isEmpty || cvKeep.isEmpty then .error .AxisMismatchError
      else .ok (newData, (dtKeep, cvKeep))

/-- Names for the matrix transformations of the processing pipeline, used to
record which transformations a run actually performed. -/
inductive Stage where
  | normalize
  | interpolate
  | smooth
  | cropStage
deriving DecidableEq, Repr

/-- process_raw_obj (CIU2_Main.py, lines 531-560), instrumented with the list
of matrix transformations performed before the run ended: normalization
always runs first, then interpolation when interpolation_bins is set, then
the smoothing loop when smoothing_window is set, then cropping when
cropping_window_values is set; the processed matrix and axes are attached to
a new CIUAnalysisObj and params is attached to it.  A stage is recorded in
the trace only when its transformation is actually performed. -/
def process_raw_obj_traced (raw : CIURaw) (p : Params) :
    Except Err CIUAnalysisObj × List Stage :=
  let d0 := normalize_by_col raw.rawdata
  let a0 := (raw.dt_axis, raw.cv_axis)
  let t0 : List Stage := [Stage.normalize]
  let step1 : Except Err (Mat × (List ℚ × List ℚ)) :=
    match p.interpolation_bins with
    | some n => interpolate_cv d0 a0 n
    | none => .ok (d0, a0)
  match step1 with
  | .error e => (.error e, t0)
  | .ok (d1, a1) =>
    let t1 := if p.interpolation_bins.isSome then t0 ++ [Stage.interpolate] else t0
    let step2 : Except Err Mat :=
      match p.smoothing_window with
      | some w => smoothLoop p.smoothing_iterations w d1
      | none => .ok d1
    match step2 with
    | .error e => (.error e, t1)
    | .ok d2 =>
      let t2 := if p.smoothing_window.isSome then t1 ++ [Stage.smooth] else t1
      let step3 : Except Err (Mat × (List ℚ × List ℚ)) :=
        match p.cropping_window_values with
        | some b => cropData d2 a1 b
        | none => .ok (d2, a1)
      match step3 with
      | .error e => (.error e, t2)
      | .ok (d3, a3) =>
        let t3 := if p.cropping_window_values.isSome then t2 ++ [Stage.cropStage] else t2
        (.ok { CIUAnalysisObj.make raw d3 a3 none with params := some p }, t3)

/-- process_raw_obj (CIU2_Main.py, lines 531-560): the value the pipeline
returns (or the exception it propagates). -/
def process_raw_obj (raw : CIURaw) (p : Params) : Except Err CIUAnalysisObj :=
  (process_raw_obj_traced raw p).1

/-- average_ciu (CIU2_Main.py, lines 563-586): collect the raw objects and
the data matrices of the inputs, take np.mean over the matrices, and build a
new CIUAnalysisObj from the first raw object, the averaged data and the first
input axes, attaching the params of the first input, the full raw object
list, and the save filename (the _Avg append).  The empty list raises
IndexError at raw_obj_list[0], modelled as none.  No axis comparison of any
kind is performed. -/
def average_ciu (objs : List CIUAnalysisObj) : Option CIUAnalysisObj :=
  match objs with
  | [] => none
  | first :: _ =>
    let raw_list := objs.map (fun o => o.raw_obj)
    let avg := npMean (objs.map (fun o => o.ciu_data))
    let base := CIUAnalysisObj.make first.raw_obj avg first.axes none
    some { base with
      params := first.params
      raw_obj_list := some raw_list
      filename := some (save_analysis_obj_name first.raw_obj.filename "_Avg") }

/-- The table rows save_gauss_params assembles (CIU_analysis_obj.py,
line 119-120): the DT axis followed by the six diagnostic lists. -/
def save_gauss_params_outarray (obj : CIUAnalysisObj) : List (List ℚ) :=
  [obj.axes.1,
   obj.gauss_centroids.getD [],
   obj.gauss_widths.getD [],
   obj.gauss_fwhms.getD [],
   obj.gauss_resolutions.getD [],
   obj.gauss_r2s.getD [],
   obj.gauss_adj_r2s.getD []]

/-- The table save_gauss_params actually writes (CIU_analysis_obj.py,
lines 121-122 and 131): the source computes np.array(outarray[0], ...) -
only the first entry of outarray - then np.transpose, which is the identity
on a one-dimensional array, and np.savetxt then writes one value per line. -/
def save_gauss_params_written (obj : CIUAnalysisObj) : List (List ℚ) :=
  ((save_gauss_params_outarray obj).getD 0 []).map (fun v => [v])

/-- The diagnostics table the spec describes (section 6): one row per CV
column holding that column centroid, width, FWHM, resolution, R squared and
adjusted R squared. -/
def gauss_table_spec (obj : CIUAnalysisObj) : List (List ℚ) :=
  (List.range obj.axes.2.length).map (fun j =>
    [(obj.gauss_centroids.getD []).getD j 0,
     (obj.gauss_widths.getD []).getD j 0,
     (obj.gauss_fwhms.getD []).getD j 0,
     (obj.gauss_resolutions.getD []).getD j 0,
     (obj.gauss_r2s.getD []).getD j 0,
     (obj.gauss_adj_r2s.getD []).getD j 0])

/-- Smoothing stage written the way the spec words it (sections 2 and 4.3):
k-fold composition of the single-pass filter, guarded by the validity checks,
to be compared with the while loop of the source. -/
def spec_smooth (k w : ℕ) (d : Mat) : Except Err Mat :=
  if k = 0 then .ok d
  else if w % 2 = 0 then .error .ConfigurationError
  else if d.any (fun col => col.length < w) then .error .ConfigurationError
  else .ok ((savGolSmoothPure w)^[k] d)

/-- The processing pipeline written following the data-flow sentence of the
spec (section 2): raw matrix, then Normalizer, then optional Interpolator,
then optional Smoother iterated, then optional Cropper, then AnalysisObject. -/
def pipeline_spec (raw : CIURaw) (p : Params) : Except Err CIUAnalysisObj :=
  let d0 := normalize_by_col raw.rawdata
  let a0 := (raw.dt_axis, raw.cv_axis)
  let step1 : Except Err (Mat × (List ℚ × List ℚ)) :=
    match p.interpolation_bins with
    | some n => interpolate_cv d0 a0 n
    | none => .ok (d0, a0)
  match step1 with
  | .error e => .error e
  | .ok (d1, a1) =>
    let step2 : Except Err Mat :=
      match p.smoothing_window with
      | some w => spec_smooth p.smoothing_iterations w d1
      | none => .ok d1
    match step2 with
    | .error e => .error e
    | .ok d2 =>
      let step3 : Except Err (Mat × (List ℚ × List ℚ)) :=
        match p.cropping_window_values with
        | some b => cropData d2 a1 b
        | none => .ok (d2, a1)
      match step3 with
      | .error e => .error e
      | .ok (d3, a3) =>
        .ok { CIUAnalysisObj.make raw d3 a3 none with params := some p }

/-! ### Concrete fixtures used to evaluate the definitions -/

/-- A small raw object: one CV column of two DT points. -/
def rawW : CIURaw :=
  { filename := "sample_raw.csv", filepath := "dir/sample_raw.csv",
    rawdata := [[1, 2]], dt_axis := [1, 2], cv_axis := [10] }

/-- A second raw object whose DT axis differs from rawW in value. -/
def rawX : CIURaw :=
  { filename := "other_raw.csv", filepath := "dir/other_raw.csv",
    rawdata := [[3, 4]], dt_axis := [1, 3], cv_axis := [10] }

/-- Analysis object built on rawW. -/
def objW : CIUAnalysisObj := CIUAnalysisObj.make rawW [[1, 2]] ([1, 2], [10]) none

/-- Analysis object built on rawX; same matrix shape as objW, axes differing
from objW in value. -/
def objX : CIUAnalysisObj := CIUAnalysisObj.make rawX [[3, 4]] ([1, 3], [10]) none

/-- Analysis object built on rawX but carrying the same axes as objW. -/
def objY : CIUAnalysisObj := CIUAnalysisObj.make rawX [[3, 4]] ([1, 2], [10]) none

/-- Parameters requesting only smoothing, with an even window of 4. -/
def pEven : Params :=
  { interpolation_bins := none, smoothing_window := some 4,
    smoothing_iterations := 1, cropping_window_values := none,
    save_output_csv := false }

/-- Parameters requesting only smoothing, with an even window of 6. -/
def pEven6 : Params :=
  { interpolation_bins := none, smoothing_window := some 6,
    smoothing_iterations := 2, cropping_window_values := none,
    save_output_csv := false }

/-- An analysis object carrying a completed Gaussian fit over two CV columns
(DT axis of three points), the failing input for the diagnostics export. -/
def gaussObjBug : CIUAnalysisObj :=
  { raw_obj := rawW
    ciu_data := [[1, 2, 3], [4, 5, 6]]
    axes := ([1, 2, 3], [10, 20])
    gauss_params := some [[0, 1, 5, 2], [0, 1, 6, 2]]
    gauss_baselines := some [0, 0]
    gauss_amplitudes := some [1, 1]
    gauss_centroids := some [5, 6]
    gauss_widths := some [2, 2]
    gauss_fwhms := some [5887 / 1250, 5887 / 1250]
    gauss_adj_r2s := some [9 / 10, 9 / 10]
    gauss_fits := some [[0, 1, 0], [0, 1, 0]]
    gauss_covariances := some [[1, 0], [0, 1]]
    gauss_r2s := some [19 / 20, 19 / 20]
    gauss_resolutions := some [6250 / 5887, 7500 / 5887]
    gauss_fit_stats := some [] }

/-! ### Helper lemmas on the matrix operations -/

lemma getD_zipWith_add (a : List ℚ) : ∀ (b : List ℚ) (j : ℕ), a.length = b.length →
    (List.zipWith (· + ·) a b).getD j 0 = a.getD j 0 + b.getD j 0 := by
  induction a with
  | nil =>
      intro b j h
      cases b with
      | nil => simp
      | cons x xs => simp at h
  | cons x xs ih =>
      intro b j h
      cases b with
      | nil => simp at h
      | cons y ys =>
          cases j with
          | zero => simp
          | succ j =>
              simp only [List.zipWith_cons_cons, List.getD_cons_succ]
              exact ih ys j (by simpa using h)

lemma getD_matAdd (A : Mat) : ∀ (B : Mat) (i : ℕ),
    (matAdd A B).getD i [] = List.zipWith (· + ·) (A.getD i []) (B.getD i []) := by
  induction A with
  | nil => intro B i; cases B <;> simp [matAdd]
  | cons c cs ih =>
      intro B i
      cases B with
      | nil => simp [matAdd]
      | cons d ds =>
          cases i with
          | zero => simp [matAdd]
          | succ i => simpa [matAdd] using ih ds i

lemma mEntry_matAdd {A B : Mat} {n m : ℕ} (hA : HasShape A n m) (hB : HasShape B n m)
    (i j : ℕ) (hi : i < n) :
    mEntry (matAdd A B) i j = mEntry A i j + mEntry B i j := by
  unfold mEntry
  rw [getD_matAdd]
  exact getD_zipWith_add _ _ j (by rw [hA.2 i hi, hB.2 i hi])

lemma matAdd_shape {A B : Mat} {n m : ℕ} (hA : HasShape A n m) (hB : HasShape B n m) :
    HasShape (matAdd A B) n m := by
  constructor
  · simp [matAdd, List.length_zipWith, hA.1, hB.1]
  · intro i hi
    rw [getD_matAdd, List.length_zipWith, hA.2 i hi, hB.2 i hi, min_self]

lemma getD_map_mul (c : ℚ) (l : List ℚ) (j : ℕ) :
    (l.map (fun x => c * x)).getD j 0 = c * l.getD j 0 := by
  induction l generalizing j with
  | nil => simp
  | cons x xs ih =>
      cases j with
      | zero => simp
      | succ j => simpa using ih j

lemma mEntry_matScale (c : ℚ) (A : Mat) (i j : ℕ) :
    mEntry (matScale c A) i j = c * mEntry A i j := by
  unfold mEntry matScale
  induction A generalizing i with
  | nil => simp
  | cons col cols ih =>
      cases i with
      | zero => simpa using getD_map_mul c col j
      | succ i => simpa using ih i

lemma foldl_matAdd_entry {n m : ℕ} (ms : List Mat) :
    ∀ (acc : Mat), HasShape acc n m → (∀ A ∈ ms, HasShape A n m) →
    ∀ i j, i < n →
    mEntry (ms.foldl matAdd acc) i j = mEntry acc i j + (ms.map (fun A => mEntry A i j)).sum := by
  induction ms with
  | nil => intro acc _ _ i j _; simp
  | cons A ms ih =>
      intro acc hacc hms i j hi
      have hA : HasShape A n m := hms A (by simp)
      have hrest : ∀ B ∈ ms, HasShape B n m := fun B hB => hms B (by simp [hB])
      simp only [List.foldl_cons, List.map_cons, List.sum_cons]
      rw [ih (matAdd acc A) (matAdd_shape hacc hA) hrest i j hi,
        mEntry_matAdd hacc hA i j hi]
      ring

lemma zipWith_add_self_map (c : ℚ) (l : List ℚ) :
    List.zipWith (· + ·) (l.map (fun x => c * x)) l = l.map (fun x => (c + 1) * x) := by
  induction l with
  | nil => rfl
  | cons x xs ih =>
      simp only [List.map_cons, List.zipWith_cons_cons, ih, List.cons.injEq, and_true]
      ring

lemma matAdd_scale_self (c : ℚ) (A : Mat) :
    matAdd (matScale c A) A = matScale (c + 1) A := by
  unfold matAdd matScale
  induction A with
  | nil => rfl
  | cons col cols ih =>
      simp only [List.map_cons, List.zipWith_cons_cons, List.cons.injEq]
      exact ⟨zipWith_add_self_map c col, ih⟩

lemma foldl_replicate_matAdd (M : Mat) : ∀ (j : ℕ) (c : ℚ),
    (List.replicate j M).foldl matAdd (matScale c M) = matScale (c + (j : ℚ)) M := by
  intro j
  induction j with
  | zero => intro c; simp
  | succ j ih =>
      intro c
      rw [List.replicate_succ, List.foldl_cons, matAdd_scale_self, ih (c + 1)]
      congr 1
      push_cast
      ring

lemma matScale_one (M : Mat) : matScale 1 M = M := by
  simp [matScale]

lemma matScale_matScale (a b : ℚ) (M : Mat) :
    matScale a (matScale b M) = matScale (a * b) M := by
  simp [matScale, List.map_map, Function.comp, mul_assoc]

lemma npMean_replicate (M : Mat) (k : ℕ) (hk : 1 ≤ k) :
    npMean (List.replicate k M) = M := by
  obtain ⟨j, rfl⟩ : ∃ j, k = j + 1 := ⟨k - 1, (Nat.succ_pred_eq_of_pos hk).symm⟩
  rw [List.replicate_succ]
  unfold npMean
  have hM : M = matScale 1 M := (matScale_one M).symm
  calc matScale (1 / ((M :: List.replicate j M).length : ℚ))
        ((List.replicate j M).foldl matAdd M)
      = matScale (1 / ((j : ℚ) + 1)) (matScale (1 + (j : ℚ)) M) := by
        rw [List.length_cons, List.length_replicate]
        nth_rewrite 1 [hM]
        rw [foldl_replicate_matAdd M j 1]
        norm_num
    _ = M := by
        have hj : (j : ℚ) + 1 ≠ 0 := by positivity
        rw [matScale_matScale]
        rw [show (1 / ((j : ℚ) + 1)) * (1 + (j : ℚ)) = 1 by field_simp; ring]
        exact matScale_one M

/-! ### Helper lemmas on the smoothing loop -/

lemma movAvg_length (w : ℕ) (col : Col) : (movAvg w col).length = col.length := by
  simp [movAvg]

lemma savGolSmoothPure_cols (w : ℕ) (data : Mat) (col : Col)
    (h : col ∈ savGolSmoothPure w data) : ∃ c0 ∈ data, col.length = c0.length := by
  rcases List.mem_map.mp h with ⟨c0, hc0, rfl⟩
  exact ⟨c0, hc0, movAvg_length w c0⟩

lemma savGol_any_short (w : ℕ) (data : Mat)
    (h : data.any (fun col => decide (col.length < w)) = false) :
    (savGolSmoothPure w data).any (fun col => decide (col.length < w)) = false := by
  rw [List.any_eq_false] at h ⊢
  intro col hcol
  rcases savGolSmoothPure_cols w data col hcol with ⟨c0, hc0, hlen⟩
  simpa [hlen] using h c0 hc0

lemma smoothLoop_eq_spec (k w : ℕ) : ∀ (d : Mat), smoothLoop k w d = spec_smooth k w d := by
  induction k with
  | zero => intro d; simp [smoothLoop, spec_smooth]
  | succ k ih =>
      intro d
      rw [smoothLoop, sav_gol_smooth]
      by_cases hw : w % 2 = 0
      · simp [spec_smooth, hw]
      · rw [if_neg hw]
        by_cases hs : d.any (fun col => decide (col.length < w)) = true
        · simp [spec_smooth, hw, hs]
        · rw [if_neg hs]
          show smoothLoop k w (savGolSmoothPure w d) = spec_smooth (k + 1) w d
          rw [ih (savGolSmoothPure w d)]
          have hs2 : d.any (fun col => decide (col.length < w)) = false :=
            Bool.eq_false_iff.mpr hs
          unfold spec_smooth
          rcases Nat.eq_zero_or_pos k with hk | hk
          · subst hk
            simp [hw, hs]
          · rw [if_neg (Nat.pos_iff_ne_zero.mp hk), if_neg hw,
              if_neg (by simpa using (savGol_any_short w d hs2)),
              if_neg (Nat.succ_ne_zero k), if_neg hw, if_neg hs]
            rw [Function.iterate_succ_apply]

/-! ### One further list lemma -/

lemma getD_map_of_lt {α β : Type} (f : α → β) (l : List α) (i : ℕ) (d : β) (dv : α)
    (h : i < l.length) : (l.map f).getD i d = f (l.getD i dv) := by
  induction l generalizing i with
  | nil => simp at h
  | cons x xs ih =>
      cases i with
      | zero => simp
      | succ i => simpa using ih i (Nat.lt_of_succ_lt_succ h)

/-! ### Claim theorems -/

/-- Claim C3: there is a raw filename ending in _raw.csv for which the
output-name derivation of save_analysis_obj removes more than the literal
suffix, because rstrip trims any trailing characters drawn from the suffix
character set; the derived name differs from exact-suffix removal. -/
theorem save_name_overstrips :
    ∃ s : String, strEndsWith s "_raw.csv" = true ∧
      save_analysis_obj_name s "" ≠ stripExactSuffix s "_raw.csv" ++ ".ciu" := by
  refine ⟨"data_raw.csv", ?_, ?_⟩
  · decide
  · decide

/-- Claim C9: init_gauss_lists turns a list of per-column parameter records,
each ordered baseline, amplitude, centroid, width, into four parallel lists
of the same length as the record list, whose i-th entries are components
0, 1, 2, 3 of the i-th record. -/
theorem init_gauss_lists_parallel (obj : CIUAnalysisObj) (ps : List (List ℚ))
    (_h4 : ∀ r ∈ ps, 4 ≤ r.length) :
    ∃ bs amps cs ws,
      (init_gauss_lists obj ps).gauss_baselines = some bs ∧
      (init_gauss_lists obj ps).gauss_amplitudes = some amps ∧
      (init_gauss_lists obj ps).gauss_centroids = some cs ∧
      (init_gauss_lists obj ps).gauss_widths = some ws ∧
      bs.length = ps.length ∧ amps.length = ps.length ∧
      cs.length = ps.length ∧ ws.length = ps.length ∧
      ∀ i, i < ps.length →
        bs.getD i 0 = (ps.getD i []).getD 0 0 ∧
        amps.getD i 0 = (ps.getD i []).getD 1 0 ∧
        cs.getD i 0 = (ps.getD i []).getD 2 0 ∧
        ws.getD i 0 = (ps.getD i []).getD 3 0 := by
  refine ⟨_, _, _, _, rfl, rfl, rfl, rfl, by simp, by simp, by simp, by simp, ?_⟩
  intro i hi
  exact ⟨getD_map_of_lt _ ps i 0 [] hi, getD_map_of_lt _ ps i 0 [] hi,
    getD_map_of_lt _ ps i 0 [] hi, getD_map_of_lt _ ps i 0 [] hi⟩

/-- Witness for claim C9, at two concrete records. -/
theorem init_gauss_lists_parallel_witness :
    ∃ bs amps cs ws,
      (init_gauss_lists objW [[0, 1, 5, 2], [1, 2, 6, 3]]).gauss_baselines = some bs ∧
      (init_gauss_lists objW [[0, 1, 5, 2], [1, 2, 6, 3]]).gauss_amplitudes = some amps ∧
      (init_gauss_lists objW [[0, 1, 5, 2], [1, 2, 6, 3]]).gauss_centroids = some cs ∧
      (init_gauss_lists objW [[0, 1, 5, 2], [1, 2, 6, 3]]).gauss_widths = some ws ∧
      bs.length = ([[0, 1, 5, 2], [1, 2, 6, 3]] : List (List ℚ)).length ∧
      amps.length = ([[0, 1, 5, 2], [1, 2, 6, 3]] : List (List ℚ)).length ∧
      cs.length = ([[0, 1, 5, 2], [1, 2, 6, 3]] : List (List ℚ)).length ∧
      ws.length = ([[0, 1, 5, 2], [1, 2, 6, 3]] : List (List ℚ)).length ∧
      ∀ i, i < ([[0, 1, 5, 2], [1, 2, 6, 3]] : List (List ℚ)).length →
        bs.getD i 0 = (([[0, 1, 5, 2], [1, 2, 6, 3]] : List (List ℚ)).getD i []).getD 0 0 ∧
        amps.getD i 0 = (([[0, 1, 5, 2], [1, 2, 6, 3]] : List (List ℚ)).getD i []).getD 1 0 ∧
        cs.getD i 0 = (([[0, 1, 5, 2], [1, 2, 6, 3]] : List (List ℚ)).getD i []).getD 2 0 ∧
        ws.getD i 0 = (([[0, 1, 5, 2], [1, 2, 6, 3]] : List (List ℚ)).getD i []).getD 3 0 :=
  init_gauss_lists_parallel objW [[0, 1, 5, 2], [1, 2, 6, 3]] (by decide)

/-- Claim C10: an object constructed without Gaussian parameters has every
gauss field equal to None (the constructor nulls twelve such fields) and
save_gaussfits_pdf on it returns without producing output; constructing with
parameters initializes the four component lists from them. -/
theorem ciu_obj_gauss_fields_init (raw : CIURaw) (data : Mat) (axes : List ℚ × List ℚ) :
    ((CIUAnalysisObj.make raw data axes none).gauss_params = none ∧
     (CIUAnalysisObj.make raw data axes none).gauss_baselines = none ∧
     (CIUAnalysisObj.make raw data axes none).gauss_amplitudes = none ∧
     (CIUAnalysisObj.make raw data axes none).gauss_centroids = none ∧
     (CIUAnalysisObj.make raw data axes none).gauss_widths = none ∧
     (CIUAnalysisObj.make raw data axes none).gauss_fwhms = none ∧
     (CIUAnalysisObj.make raw data axes none).gauss_adj_r2s = none ∧
     (CIUAnalysisObj.make raw data axes none).gauss_fits = none ∧
     (CIUAnalysisObj.make raw data axes none).gauss_covariances = none ∧
     (CIUAnalysisObj.make raw data axes none).gauss_r2s = none ∧
     (CIUAnalysisObj.make raw data axes none).gauss_resolutions = none ∧
     (CIUAnalysisObj.make raw data axes none).gauss_fit_stats = none ∧
     save_gaussfits_pdf (CIUAnalysisObj.make raw data axes none) = none) ∧
    ∀ gp : List (List ℚ),
      (CIUAnalysisObj.make raw data axes (some gp)).gauss_params = some gp ∧
      (CIUAnalysisObj.make raw data axes (some gp)).gauss_baselines
        = some (gp.map (fun x => x.getD 0 0)) ∧
      (CIUAnalysisObj.make raw data axes (some gp)).gauss_amplitudes
        = some (gp.map (fun x => x.getD 1 0)) ∧
      (CIUAnalysisObj.make raw data axes (some gp)).gauss_centroids
        = some (gp.map (fun x => x.getD 2 0)) ∧
      (CIUAnalysisObj.make raw data axes (some gp)).gauss_widths
        = some (gp.map (fun x => x.getD 3 0)) :=
  ⟨⟨rfl, rfl, rfl, rfl, rfl, rfl, rfl, rfl, rfl, rfl, rfl, rfl, rfl⟩,
   fun _ => ⟨rfl, rfl, rfl, rfl, rfl⟩⟩

/-- Claim C2 evaluation at the failing input: the table save_gauss_params
writes for gaussObjBug is the DT axis alone, one value per line, and differs
from the spec table of one diagnostics row per CV column. -/
theorem save_gauss_params_writes_only_dt_axis :
    save_gauss_params_written gaussObjBug = [[1], [2], [3]] ∧
    save_gauss_params_written gaussObjBug ≠ gauss_table_spec gaussObjBug := by
  constructor
  · rfl
  · decide

/-- Counterexample to claim C1 as stated: two inputs whose axes differ in
value, on which average_ciu succeeds and produces an averaged object instead
of failing with AxisMismatchError. -/
theorem average_mismatched_axes_succeeds :
    objW.axes ≠ objX.axes ∧ ∃ out, average_ciu [objW, objX] = some out := by
  constructor
  · decide
  · exact ⟨_, rfl⟩

/-- Claim C1 (amended): average_ciu performs no axis validation at all; for
every nonempty input list of equal-shaped matrices, including lists whose
axes differ in value, it returns an averaged object with the axes of the
first input, and no AxisMismatchError is ever raised (the source has no
failure path). -/
theorem average_ciu_no_axis_validation (o0 : CIUAnalysisObj) (rest : List CIUAnalysisObj)
    (n m : ℕ) (_hsh : ∀ o ∈ o0 :: rest, HasShape o.ciu_data n m) :
    ∃ out, average_ciu (o0 :: rest) = some out ∧ out.axes = o0.axes :=
  ⟨_, rfl, rfl⟩

/-- Witness for claim C1 (amended), at the two concrete objects with
differing axis values. -/
theorem average_ciu_no_axis_validation_witness :
    ∃ out, average_ciu [objW, objX] = some out ∧ out.axes = objW.axes :=
  average_ciu_no_axis_validation objW [objX] 1 2 (by decide)

/-- Claim C6: averaging a nonempty list of inputs all carrying the same
matrix M returns an averaged object whose matrix equals M elementwise. -/
theorem average_replicate_identity (objs : List CIUAnalysisObj) (M : Mat)
    (h1 : 1 ≤ objs.length) (hM : ∀ o ∈ objs, o.ciu_data = M) :
    ∃ out, average_ciu objs = some out ∧ out.ciu_data = M := by
  cases objs with
  | nil => simp at h1
  | cons o0 rest =>
      refine ⟨_, rfl, ?_⟩
      show npMean ((o0 :: rest).map (fun o => o.ciu_data)) = M
      have hrep : (o0 :: rest).map (fun o => o.ciu_data)
          = List.replicate (o0 :: rest).length M := by
        rw [List.eq_replicate_iff]
        refine ⟨by simp, ?_⟩
        intro b hb
        rcases List.mem_map.mp hb with ⟨o, ho, rfl⟩
        exact hM o ho
      rw [hrep]
      exact npMean_replicate M _ (by simp)

/-- Witness for claim C6, at three copies of a concrete object. -/
theorem average_replicate_identity_witness :
    ∃ out, average_ciu [objW, objW, objW] = some out ∧ out.ciu_data = [[1, 2]] :=
  average_replicate_identity [objW, objW, objW] [[1, 2]] (by decide) (by decide)

/-- Claim C7: for at least two inputs with identical axes and equal-shaped
matrices, the averaged object has the axes of the first input, a raw-source
list holding exactly the raw matrices of the inputs in input order, and each
matrix entry equal to the arithmetic mean of the corresponding input
entries. -/
theorem average_ciu_mean_spec (o0 : CIUAnalysisObj) (rest : List CIUAnalysisObj)
    (n m : ℕ) (_hN : 1 ≤ rest.length)
    (_hax : ∀ o ∈ rest, o.axes = o0.axes)
    (hsh : ∀ o ∈ o0 :: rest, HasShape o.ciu_data n m) :
    ∃ out, average_ciu (o0 :: rest) = some out ∧
      out.axes = o0.axes ∧
      out.raw_obj_list = some ((o0 :: rest).map (fun o => o.raw_obj)) ∧
      ∀ i j, i < n → j < m →
        mEntry out.ciu_data i j =
          (((o0 :: rest).map (fun o => mEntry o.ciu_data i j)).sum)
            / (((o0 :: rest).length : ℚ)) := by
  refine ⟨_, rfl, rfl, rfl, ?_⟩
  intro i j hi hj
  show mEntry (npMean ((o0 :: rest).map (fun o => o.ciu_data))) i j = _
  rw [List.map_cons]
  unfold npMean
  rw [mEntry_matScale,
    foldl_matAdd_entry (rest.map (fun o => o.ciu_data)) o0.ciu_data
      (hsh o0 (by simp))
      (fun A hA => by
        rcases List.mem_map.mp hA with ⟨o, ho, rfl⟩
        exact hsh o (by simp [ho])) i j hi]
  rw [List.map_map]
  simp only [List.length_cons, List.length_map, List.map_cons, List.sum_cons,
    Function.comp_def]
  rw [one_div, inv_mul_eq_div]

/-- Witness for claim C7, at two concrete objects sharing axes. -/
theorem average_ciu_mean_spec_witness :
    ∃ out, average_ciu [objW, objY] = some out ∧
      out.axes = objW.axes ∧
      out.raw_obj_list = some (([objW, objY].map (fun o => o.raw_obj))) ∧
      ∀ i j, i < 1 → j < 2 →
        mEntry out.ciu_data i j =
          (([objW, objY].map (fun o => mEntry o.ciu_data i j)).sum)
            / ((([objW, objY] : List CIUAnalysisObj).length : ℚ)) :=
  average_ciu_mean_spec objW [objY] 1 2 (by decide) (by decide) (by decide)

/-- Counterexample to claim C4 as stated: with an even smoothing window the
run fails with ConfigurationError, but the trace of transformations already
performed at that point is nonempty - normalization has run - so the error
is not raised before any matrix transformation. -/
theorem process_even_window_not_eager :
    process_raw_obj_traced rawW pEven
      = (Except.error Err.ConfigurationError, [Stage.normalize]) ∧
    ([Stage.normalize] : List Stage) ≠ [] := by
  refine ⟨?_, by decide⟩
  rfl

/-- Claim C4 (amended): an even smoothing window with at least one iteration
(and no interpolation configured) makes process_raw_obj fail with
ConfigurationError, but only inside the smoothing stage, after normalization
has already been performed; the failure aborts the run, so no analysis
object is produced. -/
theorem process_even_window_after_normalize (raw : CIURaw) (p : Params) (w : ℕ)
    (hb : p.interpolation_bins = none) (hw : p.smoothing_window = some w)
    (he : w % 2 = 0) (hk : 1 ≤ p.smoothing_iterations) :
    process_raw_obj_traced raw p
      = (Except.error Err.ConfigurationError, [Stage.normalize]) := by
  obtain ⟨k, hk2⟩ : ∃ k, p.smoothing_iterations = k + 1 :=
    ⟨p.smoothing_iterations - 1, (Nat.succ_pred_eq_of_pos hk).symm⟩
  unfold process_raw_obj_traced
  rw [hb, hw, hk2]
  simp [smoothLoop, sav_gol_smooth, he]

/-- Witness for claim C4 (amended), at a concrete raw object and an even
window of 6 with two iterations. -/
theorem process_even_window_after_normalize_witness :
    process_raw_obj_traced rawX pEven6
      = (Except.error Err.ConfigurationError, [Stage.normalize]) :=
  process_even_window_after_normalize rawX pEven6 6 rfl rfl (by decide) (by decide)

/-- Claim C8: for an odd window no wider than any column, the smoothing loop
of the pipeline applies the single-pass filter exactly k times sequentially,
so its result is the k-fold composition of the single-pass smoother. -/
theorem smoothing_k_fold (M : Mat) (w k : ℕ) (_hk : 1 ≤ k) (hw : w % 2 = 1)
    (hlen : ∀ col ∈ M, w ≤ col.length) :
    smoothLoop k w M = Except.ok ((savGolSmoothPure w)^[k] M) := by
  have hany : M.any (fun col => decide (col.length < w)) = false := by
    rw [List.any_eq_false]
    intro col hcol
    simpa using Nat.not_lt.mpr (hlen col hcol)
  rcases Nat.eq_zero_or_pos k with hk0 | hk0
  · subst hk0
    simp [smoothLoop]
  · rw [smoothLoop_eq_spec]
    unfold spec_smooth
    rw [if_neg (by omega : ¬ k = 0), if_neg (by omega : ¬ w % 2 = 0), hany]
    simp

/-- Witness for claim C8: two passes of window 3 on a concrete one-column
matrix of four points. -/
theorem smoothing_k_fold_witness :
    smoothLoop 2 3 [[1, 2, 3, 4]] = Except.ok ((savGolSmoothPure 3)^[2] [[1, 2, 3, 4]]) :=
  smoothing_k_fold [[1, 2, 3, 4]] 3 2 (by decide) (by decide) (by decide)

/-- Claim C5: the pipeline equals the spec data flow - normalization
unconditionally first, then interpolation exactly when interpolation_bins is
present, then the iterated smoother exactly when smoothing_window is
present, then cropping exactly when cropping_window_values is present, the
result attached to a new analysis object together with the parameters. -/
theorem process_raw_obj_pipeline_order (raw : CIURaw) (p : Params) :
    process_raw_obj raw p = pipeline_spec raw p := by
  unfold process_raw_obj process_raw_obj_traced pipeline_spec
  simp only [smoothLoop_eq_spec]
  repeat' split
  all_goals simp_all
